import Mathlib

/-!
Shallow embedding of `model_logger/log_level.py` (class `ModelLogger`): a
leveled console/file logger with size-based rotation, gzip archival and
bounded pruning of old archives.

Modelling choices:
* The filesystem visible to the logger is `FsState`: the live log file is an
  `Option String` (`none` = the file does not exist, `some c` = it exists
  with content `c`; its size is `c.length`), and the archive directory is a
  list of `ArchEntry` (file name, modification time, content).
* Wall-clock values are passed in explicitly: `ts` is the
  `%Y%m%d_%H%M%S`-formatted timestamp string used in archive names, `now`
  is the mtime stamped on a newly written archive.
* gzip compression is an abstract parameter `comp : String → String`;
  theorems about round trips quantify over a matching decompressor.
* Python exceptions raised by the I/O calls inside the `try:` block of
  `_rotate_log_file` are injected through `Faults`; the `try/except` is
  embedded with `Except`, where a caught error carries the partially
  updated filesystem state reached before the raise.  The caught handler
  prints `"Error during log rotation"`; printed error lines are returned
  alongside the state.
* Python truthiness of an optional string (`None` and `""` are falsy) is
  `truthy`.
-/

/-- One file in the archive directory: name, modification time, content. -/
structure ArchEntry where
  name : String
  mtime : Nat
  content : String
deriving Repr, DecidableEq

/-- Filesystem state seen by the logger: the live log file (if it exists)
and the files of the archive directory. -/
structure FsState where
  live : Option String
  archives : List ArchEntry
deriving Repr, DecidableEq

/-- Logger configuration/state, the fields set by `ModelLogger.__init__`. -/
structure LoggerCfg where
  name : String
  file_path : Option String
  timestamp_format : Option String
  level : String
  max_file_size : Nat
  backup_count : Nat
  archive_dir : Option String
deriving Repr, DecidableEq

/-- Python truthiness of an optional string: `None` and `""` are falsy. -/
def truthy : Option String → Bool
  | none => false
  | some s => !(s == "")

/-- Python `str.upper()` on the ASCII level names: uppercase each
character. -/
def strUpper (s : String) : String := String.mk (s.data.map Char.toUpper)

/-- The dict `ModelLogger.LOG_LEVELS`: level names and their priorities. -/
def LOG_LEVELS : List (String × Nat) :=
  [("DEBUG", 0), ("INFO", 1), ("SUCCESS", 2), ("WARNING", 3), ("ERROR", 4)]

/-- Dictionary lookup in `LOG_LEVELS`; `none` models a `KeyError`. -/
def lookupLevel (l : String) : Option Nat := LOG_LEVELS.lookup l

/-- The dict `ModelLogger.COLORS`: ANSI color prefixes per level (colorama codes). -/
def COLORS : List (String × String) :=
  [("INFO", "\x1b[34m"), ("SUCCESS", "\x1b[32m"), ("WARNING", "\x1b[33m"),
   ("ERROR", "\x1b[31m"), ("DEBUG", "\x1b[35m")]

/-- The reset code `colorama.Style.RESET_ALL`. -/
def RESET_ALL : String := "\x1b[0m"

/-- Python `str.startswith`: is `p` a prefix of `s` (character-wise)? -/
def strStartsWith (s p : String) : Bool := p.data.isPrefixOf s.data

/-- Python `str.endswith`: is `p` a suffix of `s` (character-wise)? -/
def strEndsWith (s p : String) : Bool := p.data.isSuffixOf s.data

/-- Model of `os.path.basename` for POSIX paths: the part after the last `/`. -/
def basename (p : String) : String :=
  String.mk (p.data.foldl (fun acc c => if c == '/' then [] else acc ++ [c]) [])

/-- Model of `_get_archive_filename`: `<basename of file_path>_<timestamp>.gz`. -/
def get_archive_filename (file_path : String) (ts : String) : String :=
  basename file_path ++ "_" ++ ts ++ ".gz"

/-- The filter of `_cleanup_old_archives`, line 73:
`file.endswith(".gz") and file.startswith(basename(file_path))`. -/
def matchesArchivePat (base : String) (nm : String) : Bool :=
  strEndsWith nm ".gz" && strStartsWith nm base

/-- The archive files whose names match the live log's base name. -/
def matchingArchives (base : String) (archs : List ArchEntry) : List ArchEntry :=
  archs.filter (fun e => matchesArchivePat base e.name)

/-- Descending comparison on modification times used by
`archives.sort(key=mtime, reverse=True)`; `mergeSort` with it is stable,
like Python `sort`. -/
def mtimeGe (a b : ArchEntry) : Bool := decide (b.mtime ≤ a.mtime)

/-- Model of `_cleanup_old_archives` (lines 65-85): list the `.gz` files matching the
base name, sort newest first by mtime, and remove (by path) every entry
beyond position `backup_count`.  Individual removals are modelled as
succeeding. -/
def cleanup_old_archives (cfg : LoggerCfg) (st : FsState) : FsState :=
  if !truthy cfg.archive_dir then st
  else
    let base := basename (cfg.file_path.getD "")
    let sorted := (matchingArchives base st.archives).mergeSort mtimeGe
    let removedNames := (sorted.drop cfg.backup_count).map (fun e => e.name)
    { st with archives := st.archives.filter (fun e => !(removedNames.contains e.name)) }

/-- Writing the archive file `gzip.open(archive_path, "wb")`: an existing
file of that name is overwritten, otherwise the file is created. -/
def writeArchive (st : FsState) (e : ArchEntry) : FsState :=
  if st.archives.any (fun x => x.name == e.name) then
    { st with archives := st.archives.map (fun x => if x.name == e.name then e else x) }
  else
    { st with archives := st.archives ++ [e] }

/-- Fault injection for the I/O inside the `try:` of `_rotate_log_file`:
whether the compression step (lines 98-100) or the truncation step
(line 103) raises. -/
structure Faults where
  compressFail : Bool
  truncateFail : Bool
deriving Repr, DecidableEq

/-- The fault-free environment. -/
def noFaults : Faults := ⟨false, false⟩

/-- The `try:` block of `_rotate_log_file` (lines 97-106): compress the live
file into the archive, truncate the live file, clean up old archives.  An
error carries the filesystem state reached when the exception was raised:
a compression failure leaves everything untouched, a truncation failure
leaves the live file untouched but the archive already written. -/
def rotate_attempt (cfg : LoggerCfg) (comp : String → String) (archName : String)
    (now : Nat) (f : Faults) (st : FsState) : Except FsState FsState :=
  if f.compressFail then .error st
  else
    let st1 := writeArchive st ⟨archName, now, comp (st.live.getD "")⟩
    if f.truncateFail then .error st1
    else
      let st2 : FsState := { st1 with live := some "" }
      .ok (cleanup_old_archives cfg st2)

/-- Model of `_rotate_log_file` (lines 87-109): no-op when `file_path` is falsy or
the live file does not exist; when the size is at least `max_file_size`,
run the `try:` block; an exception is caught and printed, never
propagated.  Returns the new state and the printed error lines. -/
def rotate_log_file (cfg : LoggerCfg) (comp : String → String) (ts : String)
    (now : Nat) (f : Faults) (st : FsState) : FsState × List String :=
  if !truthy cfg.file_path || st.live.isNone then (st, [])
  else if cfg.max_file_size ≤ (st.live.getD "").length then
    match rotate_attempt cfg comp (get_archive_filename (cfg.file_path.getD "") ts) now f st with
    | .ok st1 => (st1, [])
    | .error stPart => (stPart, ["Error during log rotation"])
  else (st, [])

/-- Model of `_write_to_file` (lines 115-125): no-op when `file_path` is falsy;
otherwise rotate if necessary, then append `message + "\n"` (append mode
creates the file when absent). -/
def write_to_file (cfg : LoggerCfg) (comp : String → String) (ts : String)
    (now : Nat) (f : Faults) (message : String) (st : FsState) :
    FsState × List String :=
  if !truthy cfg.file_path then (st, [])
  else
    let r := rotate_log_file cfg comp ts now f st
    ({ r.1 with live := some ((r.1.live.getD "") ++ message ++ "\n") }, r.2)

/-- Model of `_should_log` (lines 111-113): `LOG_LEVELS[level] >= LOG_LEVELS[self.level]`;
`none` models the `KeyError` on an unrecognized name. -/
def should_log (selfLevel msgLevel : String) : Option Bool := do
  let pl ← lookupLevel msgLevel
  let pm ← lookupLevel selfLevel
  pure (decide (pm ≤ pl))

/-- Python format `{level:<8}`: left-justified padding to width 8. -/
def padTo8 (s : String) : String :=
  s ++ String.mk (List.replicate (8 - s.length) ' ')

/-- Model of `_log` (lines 127-143): filter by level, build the colorized and plain
records, print to console, and write to the file when `file_path` is set.
Returns `(console lines, filesystem state, printed rotation errors)`;
`none` models the `KeyError` of `_should_log` on an unrecognized level. -/
def log_call (cfg : LoggerCfg) (comp : String → String) (tsName : String)
    (now : Nat) (f : Faults) (level message ts : String) (st : FsState) :
    Option (List String × FsState × List String) := do
  let ok ← should_log cfg.level level
  if !ok then
    pure ([], st, [])
  else
    let color := (COLORS.lookup level).getD ""
    let line := "[" ++ ts ++ "] " ++ padTo8 level ++ " " ++ cfg.name ++ ": " ++ message
    let formatted := color ++ line ++ RESET_ALL
    if truthy cfg.file_path then
      let r := write_to_file cfg comp tsName now f line st
      pure ([formatted], r.1, r.2)
    else
      pure ([formatted], st, [])

/-- Model of `set_level` (lines 145-150): uppercase, validate membership, update.
`Except` carries the `ValueError` of an invalid name. -/
def set_level (cfg : LoggerCfg) (level : String) : Except String LoggerCfg :=
  let lvl := strUpper level
  if (lookupLevel lvl).isSome then .ok { cfg with level := lvl }
  else .error "Invalid log level"

/-- Observable outcome of a `set_level` call on a logger: the logger state
after the call and whether the call raised.  The raise happens before the
assignment, so on failure the state is unchanged. -/
def set_level_run (cfg : LoggerCfg) (level : String) : LoggerCfg × Bool :=
  match set_level cfg level with
  | .ok c => (c, false)
  | .error _ => (cfg, true)

/-- Outcome of `ModelLogger.__init__`: which archive directory was created
on disk (a side effect that persists even when construction then fails)
and the constructed logger or the raised `ValueError`. -/
structure InitOutcome where
  createdDir : Option String
  result : Except String LoggerCfg
deriving Repr

/-- Model of `ModelLogger.__init__` (lines 29-57).  `dirOfAbs` models
`os.path.dirname(os.path.abspath(·))`, which depends on the process
environment.  Order of effects is the source's: resolve the archive
directory, create it with `os.makedirs`, and only then validate the
level. -/
def ModelLogger_init (dirOfAbs : String → String) (nm : Option String)
    (file_path : Option String) (tfmt : Option String) (level : String)
    (max_file_size : Nat) (backup_count : Nat) (archive_dir : Option String) :
    InitOutcome :=
  let name := if truthy nm then nm.getD "" else "ModelLogger"
  let lvl := strUpper level
  let adir : Option String :=
    if truthy file_path && archive_dir.isNone then
      some (dirOfAbs (file_path.getD "") ++ "/logs/archive")
    else archive_dir
  let created : Option String :=
    if truthy file_path && truthy adir then adir else none
  let cfg : LoggerCfg :=
    ⟨name, file_path, tfmt, lvl, max_file_size, backup_count, adir⟩
  if (lookupLevel lvl).isSome then ⟨created, .ok cfg⟩
  else ⟨created, .error "Invalid log level"⟩

/-- Number of archive files matching the live log's base name. -/
def matchCount (base : String) (archs : List ArchEntry) : Nat :=
  (matchingArchives base archs).length

/-- Lookup by file name in the archive directory. -/
def findArchive (st : FsState) (nm : String) : Option ArchEntry :=
  st.archives.find? (fun e => e.name == nm)

/-- One rotation event of a run: the timestamp string entering the archive
name and the mtime the new archive gets. -/
structure RotCall where
  ts : String
  now : Nat
deriving Repr, DecidableEq

/-- A sequence of (fault-free) rotation checks. -/
def runRotations (cfg : LoggerCfg) (comp : String → String)
    (calls : List RotCall) (st : FsState) : FsState :=
  calls.foldl (fun s c => (rotate_log_file cfg comp c.ts c.now noFaults s).1) st

/-- The archive directory `__init__` resolves: the explicit one, or
`<dir-of-file_path>/logs/archive` when `file_path` is set and none was
given. -/
def resolvedArchiveDir (dirOfAbs : String → String)
    (file_path archive_dir : Option String) : Option String :=
  if truthy file_path && archive_dir.isNone then
    some (dirOfAbs (file_path.getD "") ++ "/logs/archive")
  else archive_dir

/-- The names `_cleanup_old_archives` removes: every entry beyond position
`backup_count` of the matching archives sorted by mtime, newest first. -/
def removedNames (base : String) (k : Nat) (archs : List ArchEntry) : List String :=
  (((matchingArchives base archs).mergeSort mtimeGe).drop k).map (fun e => e.name)

/-- A concrete logger configuration used by witnesses and counterexamples:
`file_path` set, `max_file_size = 1`, `backup_count = 2`. -/
def cfgW : LoggerCfg :=
  ⟨"L", some "app.log", some "%Y-%m-%d %H:%M:%S", "INFO", 1, 2, some "/a"⟩

/-- A concrete archive directory: three archives matching `app.log`, one
foreign file, all names distinct. -/
def stW5 : FsState :=
  ⟨some "x",
   [⟨"app.log_a.gz", 1, "A"⟩, ⟨"app.log_b.gz", 3, "B"⟩,
    ⟨"other.txt", 9, "X"⟩, ⟨"app.log_c.gz", 2, "C"⟩]⟩

/-! ### Basic lemmas about the rotation path -/

theorem cleanup_live (cfg : LoggerCfg) (st : FsState) :
    (cleanup_old_archives cfg st).live = st.live := by
  unfold cleanup_old_archives
  split <;> rfl

theorem writeArchive_live (st : FsState) (e : ArchEntry) :
    (writeArchive st e).live = st.live := by
  unfold writeArchive
  split <;> rfl

theorem rotate_skip_no_file (cfg : LoggerCfg) (comp : String → String)
    (ts : String) (now : Nat) (f : Faults) (st : FsState) (h : st.live = none) :
    rotate_log_file cfg comp ts now f st = (st, []) := by
  unfold rotate_log_file
  simp [h]

theorem rotate_skip_no_path (cfg : LoggerCfg) (comp : String → String)
    (ts : String) (now : Nat) (f : Faults) (st : FsState)
    (h : truthy cfg.file_path = false) :
    rotate_log_file cfg comp ts now f st = (st, []) := by
  unfold rotate_log_file
  simp [h]

theorem rotate_skip_small (cfg : LoggerCfg) (comp : String → String)
    (ts : String) (now : Nat) (f : Faults) (st : FsState) (c : String)
    (hc : st.live = some c) (hlt : c.length < cfg.max_file_size) :
    rotate_log_file cfg comp ts now f st = (st, []) := by
  unfold rotate_log_file
  cases htp : truthy cfg.file_path <;> simp [hc, htp, Nat.not_le.mpr hlt]

theorem rotate_triggered_ok (cfg : LoggerCfg) (comp : String → String)
    (ts : String) (now : Nat) (st : FsState) (c : String)
    (hfp : truthy cfg.file_path = true) (hc : st.live = some c)
    (hge : cfg.max_file_size ≤ c.length) :
    rotate_log_file cfg comp ts now noFaults st =
      (cleanup_old_archives cfg
        { writeArchive st ⟨get_archive_filename (cfg.file_path.getD "") ts, now,
            comp c⟩ with live := some "" }, []) := by
  unfold rotate_log_file rotate_attempt
  simp [hfp, hc, hge, noFaults]

theorem rotate_compressFail (cfg : LoggerCfg) (comp : String → String)
    (ts : String) (now : Nat) (st : FsState) (c : String) (f : Faults)
    (hfp : truthy cfg.file_path = true) (hc : st.live = some c)
    (hge : cfg.max_file_size ≤ c.length) (hcf : f.compressFail = true) :
    rotate_log_file cfg comp ts now f st = (st, ["Error during log rotation"]) := by
  unfold rotate_log_file rotate_attempt
  simp [hfp, hc, hge, hcf]

theorem rotate_truncateFail (cfg : LoggerCfg) (comp : String → String)
    (ts : String) (now : Nat) (st : FsState) (c : String) (f : Faults)
    (hfp : truthy cfg.file_path = true) (hc : st.live = some c)
    (hge : cfg.max_file_size ≤ c.length)
    (hcf : f.compressFail = false) (htf : f.truncateFail = true) :
    rotate_log_file cfg comp ts now f st =
      (writeArchive st ⟨get_archive_filename (cfg.file_path.getD "") ts, now, comp c⟩,
       ["Error during log rotation"]) := by
  unfold rotate_log_file rotate_attempt
  simp [hfp, hc, hge, hcf, htf]

theorem write_to_file_eq (cfg : LoggerCfg) (comp : String → String)
    (ts : String) (now : Nat) (f : Faults) (msg : String) (st : FsState)
    (hfp : truthy cfg.file_path = true) :
    write_to_file cfg comp ts now f msg st =
      ({ (rotate_log_file cfg comp ts now f st).1 with
          live := some (((rotate_log_file cfg comp ts now f st).1.live.getD "")
            ++ msg ++ "\n") },
       (rotate_log_file cfg comp ts now f st).2) := by
  unfold write_to_file
  simp [hfp]

/-! ### C3: level filtering -/

/-- C3: with priorities DEBUG=0, INFO=1, SUCCESS=2, WARNING=3, ERROR=4,
`_should_log` on recognized levels returns true iff
`priority(messageLevel) ≥ priority(configuredMinLevel)`, and for a message
level of strictly smaller priority `_log` produces no console output and
no file write (the filesystem state is unchanged). -/
theorem c3_level_filter (M L : String) (pm pl : Nat)
    (hm : lookupLevel M = some pm) (hl : lookupLevel L = some pl) :
    lookupLevel "DEBUG" = some 0 ∧ lookupLevel "INFO" = some 1 ∧
    lookupLevel "SUCCESS" = some 2 ∧ lookupLevel "WARNING" = some 3 ∧
    lookupLevel "ERROR" = some 4 ∧
    should_log M L = some (decide (pm ≤ pl)) ∧
    (pl < pm → ∀ (cfg : LoggerCfg) (comp : String → String) (tsName : String)
      (now : Nat) (f : Faults) (msg ts : String) (st : FsState),
      cfg.level = M →
      log_call cfg comp tsName now f L msg ts st = some ([], st, [])) := by
  refine ⟨rfl, rfl, rfl, rfl, rfl, ?_, ?_⟩
  · simp [should_log, hm, hl]
  · intro hlt cfg comp tsName now f msg ts st hcfg
    simp [log_call, should_log, hm, hl, hcfg, Nat.not_le.mpr hlt]

/-- Witness for C3 at `M = "INFO"`, `L = "DEBUG"`: the message is filtered
out, the console gets nothing and the filesystem is untouched. -/
theorem c3_level_filter_witness :
    should_log "INFO" "DEBUG" = some false ∧
    log_call cfgW id "t" 0 noFaults "DEBUG" "m" "ts" ⟨some "x", []⟩
      = some ([], ⟨some "x", []⟩, []) := by
  have h := c3_level_filter "INFO" "DEBUG" 1 0 rfl rfl
  exact ⟨h.2.2.2.2.2.1, h.2.2.2.2.2.2 (by decide) cfgW id "t" 0 noFaults "m" "ts"
    ⟨some "x", []⟩ rfl⟩

/-! ### C8: setLevel validation -/

/-- C8: `set_level` with a name whose uppercasing is not one of the five
recognized levels raises `ValueError` (`InvalidLevel`) and leaves the
logger's effective level unchanged; with a case-insensitive match it
updates the level to the uppercased name. -/
theorem c8_set_level (cfg : LoggerCfg) (s : String) :
    (lookupLevel (strUpper s) = none →
      set_level cfg s = .error "Invalid log level" ∧
      set_level_run cfg s = (cfg, true)) ∧
    (∀ p, lookupLevel (strUpper s) = some p →
      set_level cfg s = .ok { cfg with level := strUpper s } ∧
      set_level_run cfg s = ({ cfg with level := strUpper s }, false)) := by
  constructor
  · intro h
    constructor <;> simp [set_level, set_level_run, h]
  · intro p h
    constructor <;> simp [set_level, set_level_run, h]

/-- Witness for C8: `set_level "bogus"` fails leaving the level unchanged,
`set_level "warning"` updates the level to `"WARNING"`. -/
theorem c8_set_level_witness :
    (set_level cfgW "bogus" = .error "Invalid log level" ∧
     set_level_run cfgW "bogus" = (cfgW, true)) ∧
    (set_level cfgW "warning" = .ok { cfgW with level := "WARNING" } ∧
     set_level_run cfgW "warning" = ({ cfgW with level := "WARNING" }, false)) := by
  constructor
  · exact (c8_set_level cfgW "bogus").1 rfl
  · have h := (c8_set_level cfgW "warning").2 3 rfl
    simpa using h

/-! ### C9: archive directory created before the invalid-level check -/

/-- C9: constructing a logger with `file_path` set and an unrecognized
level name creates the archive directory on disk and only then raises
`ValueError`: the directory-creation side effect persists although
construction fails. -/
theorem c9_init_creates_dir_despite_invalid_level
    (dirOfAbs : String → String) (nm : Option String)
    (fp tfmt : Option String) (lvl : String) (mx bc : Nat)
    (adir : Option String)
    (hfp : truthy fp = true)
    (hbad : lookupLevel (strUpper lvl) = none)
    (hdir : truthy (resolvedArchiveDir dirOfAbs fp adir) = true) :
    (ModelLogger_init dirOfAbs nm fp tfmt lvl mx bc adir).createdDir
      = resolvedArchiveDir dirOfAbs fp adir ∧
    (ModelLogger_init dirOfAbs nm fp tfmt lvl mx bc adir).result
      = .error "Invalid log level" := by
  have hres : ModelLogger_init dirOfAbs nm fp tfmt lvl mx bc adir =
      ⟨if truthy (resolvedArchiveDir dirOfAbs fp adir) then
          resolvedArchiveDir dirOfAbs fp adir
        else none,
       .error "Invalid log level"⟩ := by
    unfold ModelLogger_init resolvedArchiveDir
    simp [hfp, hbad]
  rw [hres]
  simp [hdir]

/-- Witness for C9: constructing with `file_path = "app.log"`, no explicit
archive dir and level `"bogus"` creates `<dir>/logs/archive` and fails. -/
theorem c9_init_witness :
    (ModelLogger_init (fun _ => "/d") none (some "app.log") none "bogus" 10 5
        none).createdDir = some "/d/logs/archive" ∧
    (ModelLogger_init (fun _ => "/d") none (some "app.log") none "bogus" 10 5
        none).result = .error "Invalid log level" := by
  have h := c9_init_creates_dir_despite_invalid_level (fun _ => "/d") none
    (some "app.log") none "bogus" 10 5 none (by decide) (by decide) (by decide)
  simpa using h

/-! ### C1: post-append size bound -/

/-- C1 counterexample: with `max_file_size = 1`, a fault-free
`_write_to_file` of the record `"a"` onto an empty live file returns
successfully, yet afterwards the live file has size `2`, which is not
strictly smaller than `maxFileSizeBytes = 1`: rotation is checked before
the record is appended, so the bound claimed immediately after a
successful append fails. -/
theorem c1_counterexample :
    write_to_file cfgW id "t" 0 noFaults "a" ⟨some "", []⟩
      = (⟨some "a\n", []⟩, []) ∧
    ¬ (("a\n".length : Nat) < cfgW.max_file_size) := by
  constructor
  · rfl
  · decide

/-- C1 (amended): after a fault-free `_write_to_file` with `file_path` set
and `max_file_size` positive, the live file exists and its size is
strictly smaller than `max_file_size` plus the size of the record just
appended (message plus newline): rotation enforces the strict bound only
on the size the file had before the append. -/
theorem c1_amended_size_bound (cfg : LoggerCfg) (comp : String → String)
    (ts : String) (now : Nat) (msg : String) (st : FsState)
    (hfp : truthy cfg.file_path = true) (hmax : 0 < cfg.max_file_size) :
    ((write_to_file cfg comp ts now noFaults msg st).1.live).isSome = true ∧
    ((write_to_file cfg comp ts now noFaults msg st).1.live.getD "").length
      < cfg.max_file_size + (msg.length + 1) := by
  rw [write_to_file_eq cfg comp ts now noFaults msg st hfp]
  have hn : ("\n" : String).length = 1 := rfl
  have key : ((rotate_log_file cfg comp ts now noFaults st).1.live.getD "").length
      < cfg.max_file_size := by
    cases hlive : st.live with
    | none =>
      rw [rotate_skip_no_file cfg comp ts now noFaults st hlive]
      simpa [hlive] using hmax
    | some c =>
      by_cases hge : cfg.max_file_size ≤ c.length
      · rw [rotate_triggered_ok cfg comp ts now st c hfp hlive hge]
        simpa [cleanup_live] using hmax
      · rw [rotate_skip_small cfg comp ts now noFaults st c hlive (Nat.not_le.mp hge)]
        simpa [hlive] using Nat.not_le.mp hge
  refine ⟨rfl, ?_⟩
  simp only [Option.getD_some, String.length_append, hn]
  omega

/-- Witness for C1 (amended) at the concrete counterexample input: the
bound `size < max_file_size + |record|` does hold there. -/
theorem c1_amended_size_bound_witness :
    truthy cfgW.file_path = true ∧ 0 < cfgW.max_file_size ∧
    (((write_to_file cfgW id "t" 0 noFaults "a" ⟨some "", []⟩).1.live).isSome = true ∧
     ((write_to_file cfgW id "t" 0 noFaults "a" ⟨some "", []⟩).1.live.getD "").length
       < cfgW.max_file_size + ("a".length + 1)) :=
  ⟨by decide, by decide,
   c1_amended_size_bound cfgW id "t" 0 "a" ⟨some "", []⟩ (by decide) (by decide)⟩

/-! ### C2: rotation failure is caught, not propagated -/

/-- C2 counterexample: the live file `"xx"` is at the size threshold and
the compression step fails; `_rotate_log_file` returns normally with the
error merely printed (`"Error during log rotation"`), and the subsequent
append still runs and succeeds: the `ArchiveIOError` is swallowed inside
rotation, not propagated to the caller as the claim states. -/
theorem c2_counterexample :
    rotate_log_file cfgW id "t" 5 ⟨true, false⟩ ⟨some "xx", []⟩
      = (⟨some "xx", []⟩, ["Error during log rotation"]) ∧
    write_to_file cfgW id "t" 5 ⟨true, false⟩ "a" ⟨some "xx", []⟩
      = (⟨some "xxa\n", []⟩, ["Error during log rotation"]) := by
  constructor <;> rfl

/-- C2 (amended): when the source cannot be read or the archive cannot be
written (compression fails), `_rotate_log_file` catches the exception and
prints an error line instead of propagating it, leaving the whole
filesystem state — in particular the live file — untouched (no partial
truncation); when truncation fails after a successful compression, the
live file is likewise left untouched although the archive file exists. -/
theorem c2_failure_swallowed_live_untouched (cfg : LoggerCfg)
    (comp : String → String) (ts : String) (now : Nat) (st : FsState)
    (c : String) (f : Faults)
    (hfp : truthy cfg.file_path = true) (hc : st.live = some c)
    (hge : cfg.max_file_size ≤ c.length) :
    (f.compressFail = true →
      rotate_log_file cfg comp ts now f st = (st, ["Error during log rotation"])) ∧
    (f.compressFail = false → f.truncateFail = true →
      rotate_log_file cfg comp ts now f st =
        (writeArchive st ⟨get_archive_filename (cfg.file_path.getD "") ts, now,
           comp c⟩, ["Error during log rotation"]) ∧
      (rotate_log_file cfg comp ts now f st).1.live = st.live) := by
  refine ⟨fun hcf => rotate_compressFail cfg comp ts now st c f hfp hc hge hcf,
    fun hcf htf => ?_⟩
  have h := rotate_truncateFail cfg comp ts now st c f hfp hc hge hcf htf
  exact ⟨h, by rw [h]; exact writeArchive_live st _⟩

/-- Witness for C2 (amended): at the concrete input of the counterexample,
the compression-failure branch leaves the state untouched and prints. -/
theorem c2_failure_swallowed_witness :
    rotate_log_file cfgW id "t" 5 ⟨true, false⟩ ⟨some "xx", []⟩
      = (⟨some "xx", []⟩, ["Error during log rotation"]) :=
  (c2_failure_swallowed_live_untouched cfgW id "t" 5 ⟨some "xx", []⟩ "xx"
    ⟨true, false⟩ (by decide) rfl (by decide)).1 rfl

/-! ### C10: the record survives a rotation failure -/

/-- C10: when the rotation triggered by an append fails in its compression
or truncation step, `_write_to_file` still appends the record to the
un-truncated live file: the append succeeds (returning with the record at
the end of the file, the failure only printed) and the live file ends at
or above `max_file_size`. -/
theorem c10_append_survives_rotation_failure (cfg : LoggerCfg)
    (comp : String → String) (ts : String) (now : Nat) (msg : String)
    (st : FsState) (c : String) (f : Faults)
    (hfp : truthy cfg.file_path = true) (hc : st.live = some c)
    (hge : cfg.max_file_size ≤ c.length)
    (hf : (f.compressFail || f.truncateFail) = true) :
    (write_to_file cfg comp ts now f msg st).1.live = some (c ++ msg ++ "\n") ∧
    cfg.max_file_size
      ≤ ((write_to_file cfg comp ts now f msg st).1.live.getD "").length ∧
    (write_to_file cfg comp ts now f msg st).2 = ["Error during log rotation"] := by
  rw [write_to_file_eq cfg comp ts now f msg st hfp]
  have hlive : (rotate_log_file cfg comp ts now f st).1.live = some c := by
    cases hcf : f.compressFail with
    | true =>
      rw [rotate_compressFail cfg comp ts now st c f hfp hc hge hcf]
      exact hc
    | false =>
      have htf : f.truncateFail = true := by
        cases htf : f.truncateFail with
        | true => rfl
        | false => rw [hcf, htf] at hf; exact absurd hf (by decide)
      rw [rotate_truncateFail cfg comp ts now st c f hfp hc hge hcf htf]
      rw [writeArchive_live]
      exact hc
  have herr : (rotate_log_file cfg comp ts now f st).2
      = ["Error during log rotation"] := by
    cases hcf : f.compressFail with
    | true => rw [rotate_compressFail cfg comp ts now st c f hfp hc hge hcf]
    | false =>
      have htf : f.truncateFail = true := by
        cases htf : f.truncateFail with
        | true => rfl
        | false => rw [hcf, htf] at hf; exact absurd hf (by decide)
      rw [rotate_truncateFail cfg comp ts now st c f hfp hc hge hcf htf]
  refine ⟨?_, ?_, herr⟩
  · simp [hlive]
  · simp only [hlive, Option.getD_some, String.length_append]
    omega

/-- Witness for C10: a compression failure at the threshold; the record
`"a"` still lands in the live file, whose size stays at or above the
threshold. -/
theorem c10_append_survives_witness :
    (write_to_file cfgW id "t" 5 ⟨true, false⟩ "a" ⟨some "xx", []⟩).1.live
      = some ("xx" ++ "a" ++ "\n") ∧
    cfgW.max_file_size
      ≤ ((write_to_file cfgW id "t" 5 ⟨true, false⟩ "a" ⟨some "xx", []⟩).1.live.getD
          "").length ∧
    (write_to_file cfgW id "t" 5 ⟨true, false⟩ "a" ⟨some "xx", []⟩).2
      = ["Error during log rotation"] :=
  c10_append_survives_rotation_failure cfgW id "t" 5 "a" ⟨some "xx", []⟩ "xx"
    ⟨true, false⟩ (by decide) rfl (by decide) (by decide)

/-! ### Pruning machinery: what `_cleanup_old_archives` keeps and removes -/

theorem cleanup_archives_eq (cfg : LoggerCfg) (st : FsState)
    (hadir : truthy cfg.archive_dir = true) :
    (cleanup_old_archives cfg st).archives =
      st.archives.filter (fun e =>
        !((removedNames (basename (cfg.file_path.getD "")) cfg.backup_count
            st.archives).contains e.name)) := by
  unfold cleanup_old_archives removedNames
  simp [hadir]

/-- Every removed name is the name of a matching archive entry. -/
theorem removed_name_matches (base : String) (k : Nat) (l : List ArchEntry)
    (nm : String) (h : nm ∈ removedNames base k l) :
    matchesArchivePat base nm = true := by
  rcases List.mem_map.mp h with ⟨e, he, rfl⟩
  have hs : e ∈ (matchingArchives base l).mergeSort mtimeGe :=
    List.mem_of_mem_drop he
  have hm : e ∈ matchingArchives base l := List.mem_mergeSort.mp hs
  exact (List.mem_filter.mp hm).2

/-- The names of the matching archives are deduplicated whenever the
directory's names are. -/
theorem matching_names_nodup {l : List ArchEntry}
    (hnd : (l.map (fun e => e.name)).Nodup) (base : String) :
    ((matchingArchives base l).map (fun e => e.name)).Nodup :=
  hnd.sublist ((List.filter_sublist l).map (fun e => e.name))

/-- The sorted matching archives carry the same names, still deduplicated. -/
theorem sorted_names_nodup {l : List ArchEntry}
    (hnd : (l.map (fun e => e.name)).Nodup) (base : String) :
    (((matchingArchives base l).mergeSort mtimeGe).map (fun e => e.name)).Nodup :=
  ((List.mergeSort_perm (matchingArchives base l) mtimeGe).map
    (fun e => e.name)).symm.nodup (matching_names_nodup hnd base)

/-- Core membership characterisation: a matching entry of the directory is
kept by `_cleanup_old_archives` exactly when it is among the first
`backup_count` entries of the matching archives sorted newest-first. -/
theorem kept_matching_iff {l : List ArchEntry}
    (hnd : (l.map (fun e => e.name)).Nodup) (base : String) (k : Nat)
    (e : ArchEntry) :
    (e ∈ l ∧ (!((removedNames base k l).contains e.name)) = true ∧
      matchesArchivePat base e.name = true)
    ↔ e ∈ ((matchingArchives base l).mergeSort mtimeGe).take k := by
  have hsortednd := sorted_names_nodup hnd base
  constructor
  · rintro ⟨hel, hkeep, hmatch⟩
    have hm : e ∈ matchingArchives base l := List.mem_filter.mpr ⟨hel, hmatch⟩
    have hsorted : e ∈ (matchingArchives base l).mergeSort mtimeGe :=
      List.mem_mergeSort.mpr hm
    rw [← List.take_append_drop k ((matchingArchives base l).mergeSort mtimeGe)]
      at hsorted
    rcases List.mem_append.mp hsorted with htake | hdrop
    · exact htake
    · exfalso
      have : e.name ∈ removedNames base k l :=
        List.mem_map_of_mem (fun x => x.name) hdrop
      simp only [Bool.not_eq_true', List.contains, List.elem_eq_mem,
        decide_eq_false_iff_not, decide_eq_true_eq] at hkeep
      exact hkeep this
  · intro htake
    have hsorted : e ∈ (matchingArchives base l).mergeSort mtimeGe :=
      List.mem_of_mem_take htake
    have hm : e ∈ matchingArchives base l := List.mem_mergeSort.mp hsorted
    have hel : e ∈ l := (List.mem_filter.mp hm).1
    have hmatch : matchesArchivePat base e.name = true := (List.mem_filter.mp hm).2
    refine ⟨hel, ?_, hmatch⟩
    have hdisj :
        List.Disjoint
          ((((matchingArchives base l).mergeSort mtimeGe).take k).map
            (fun x => x.name))
          ((((matchingArchives base l).mergeSort mtimeGe).drop k).map
            (fun x => x.name)) := by
      apply List.disjoint_of_nodup_append
      rw [← List.map_append, List.take_append_drop]
      exact hsortednd
    have hnotin : ¬ e.name ∈ removedNames base k l := by
      intro habs
      exact hdisj (List.mem_map_of_mem (fun x => x.name) htake) habs
    simp only [Bool.not_eq_true', List.contains, List.elem_eq_mem,
      decide_eq_false_iff_not, decide_eq_true_eq]
    exact hnotin

/-- Pruning never deletes an entry whose name does not match the live
log's base name. -/
theorem cleanup_keeps_nonmatching (cfg : LoggerCfg) (st : FsState)
    (hadir : truthy cfg.archive_dir = true) (e : ArchEntry)
    (he : e ∈ st.archives)
    (hnm : matchesArchivePat (basename (cfg.file_path.getD "")) e.name = false) :
    e ∈ (cleanup_old_archives cfg st).archives := by
  rw [cleanup_archives_eq cfg st hadir]
  refine List.mem_filter.mpr ⟨he, ?_⟩
  have hni : ¬ e.name ∈ removedNames (basename (cfg.file_path.getD ""))
      cfg.backup_count st.archives := by
    intro habs
    rw [removed_name_matches _ _ _ _ habs] at hnm
    cases hnm
  simp only [Bool.not_eq_true', List.contains, List.elem_eq_mem,
    decide_eq_false_iff_not, decide_eq_true_eq]
  exact hni

/-- Pruning only removes entries: the resulting directory is a subset of
the original one. -/
theorem cleanup_subset (cfg : LoggerCfg) (st : FsState) (e : ArchEntry)
    (he : e ∈ (cleanup_old_archives cfg st).archives) : e ∈ st.archives := by
  unfold cleanup_old_archives at he
  by_cases h : truthy cfg.archive_dir
  · simp only [h, Bool.not_true, Bool.false_eq_true, if_false] at he
    exact (List.mem_filter.mp he).1
  · simp only [Bool.not_eq_true] at h
    simp only [h, Bool.not_false, if_true] at he
    exact he

/-- After pruning, the matching entries that remain are exactly the first
`backup_count` of the matching archives ordered newest-first (as a
permutation: the directory listing keeps its own order). -/
theorem cleanup_matching_perm (cfg : LoggerCfg) (st : FsState)
    (hadir : truthy cfg.archive_dir = true)
    (hnd : (st.archives.map (fun e => e.name)).Nodup) :
    List.Perm
      ((cleanup_old_archives cfg st).archives.filter
        (fun e => matchesArchivePat (basename (cfg.file_path.getD "")) e.name))
      (((matchingArchives (basename (cfg.file_path.getD ""))
          st.archives).mergeSort mtimeGe).take cfg.backup_count) := by
  have hent : st.archives.Nodup := List.Nodup.of_map _ hnd
  have hmn : ((matchingArchives (basename (cfg.file_path.getD ""))
      st.archives).map (fun e => e.name)).Nodup := matching_names_nodup hnd _
  have hment : (matchingArchives (basename (cfg.file_path.getD ""))
      st.archives).Nodup := List.Nodup.of_map _ hmn
  have hsorted : (((matchingArchives (basename (cfg.file_path.getD ""))
      st.archives).mergeSort mtimeGe)).Nodup :=
    (List.mergeSort_perm _ mtimeGe).symm.nodup hment
  apply (List.perm_ext_iff_of_nodup ?_ ?_).mpr
  · intro e
    rw [List.mem_filter, cleanup_archives_eq cfg st hadir, List.mem_filter]
    constructor
    · rintro ⟨⟨hel, hkeep⟩, hmatch⟩
      exact (kept_matching_iff hnd _ _ e).mp ⟨hel, hkeep, hmatch⟩
    · intro htake
      obtain ⟨hel, hkeep, hmatch⟩ := (kept_matching_iff hnd _ _ e).mpr htake
      exact ⟨⟨hel, hkeep⟩, hmatch⟩
  · rw [cleanup_archives_eq cfg st hadir]
    exact hent.sublist ((List.filter_sublist _).trans (List.filter_sublist _))
  · exact hsorted.sublist (List.take_sublist _ _)

/-- After pruning, exactly `min backup_count (number of matching archives)`
matching archives remain. -/
theorem cleanup_matchCount (cfg : LoggerCfg) (st : FsState)
    (hadir : truthy cfg.archive_dir = true)
    (hnd : (st.archives.map (fun e => e.name)).Nodup) :
    matchCount (basename (cfg.file_path.getD ""))
        (cleanup_old_archives cfg st).archives
      = min cfg.backup_count
          (matchCount (basename (cfg.file_path.getD "")) st.archives) := by
  have hperm := cleanup_matching_perm cfg st hadir hnd
  have hlen := hperm.length_eq
  unfold matchCount matchingArchives at *
  rw [hlen, List.length_take, List.length_mergeSort]

/-! ### C5: pruning scope and order -/

/-- C5: pruning considers exactly the files whose name starts with the live
log's base name and ends with `.gz`; it never deletes a file outside that
matching set and never adds files; and (under unique directory names) the
matching files it keeps are exactly the `backup_count` most recent ones in
the newest-first mtime order — every entry beyond that position is
removed, so `min backup_count (previous matching count)` remain. -/
theorem c5_prune_scope (cfg : LoggerCfg) (st : FsState)
    (hadir : truthy cfg.archive_dir = true) :
    (∀ e ∈ st.archives,
      matchesArchivePat (basename (cfg.file_path.getD "")) e.name = false →
      e ∈ (cleanup_old_archives cfg st).archives) ∧
    (∀ e ∈ (cleanup_old_archives cfg st).archives, e ∈ st.archives) ∧
    ((st.archives.map (fun e => e.name)).Nodup →
      List.Perm
        ((cleanup_old_archives cfg st).archives.filter
          (fun e => matchesArchivePat (basename (cfg.file_path.getD "")) e.name))
        (((matchingArchives (basename (cfg.file_path.getD ""))
            st.archives).mergeSort mtimeGe).take cfg.backup_count) ∧
      matchCount (basename (cfg.file_path.getD ""))
          (cleanup_old_archives cfg st).archives
        = min cfg.backup_count
            (matchCount (basename (cfg.file_path.getD "")) st.archives)) :=
  ⟨fun e he hnm => cleanup_keeps_nonmatching cfg st hadir e he hnm,
   fun e he => cleanup_subset cfg st e he,
   fun hnd => ⟨cleanup_matching_perm cfg st hadir hnd,
     cleanup_matchCount cfg st hadir hnd⟩⟩

/-- Witness for C5: with `backup_count = 2` and three matching archives,
the foreign file survives pruning and exactly `min 2 3 = 2` matching
archives remain. -/
theorem c5_prune_scope_witness :
    truthy cfgW.archive_dir = true ∧
    (stW5.archives.map (fun e => e.name)).Nodup ∧
    (⟨"other.txt", 9, "X"⟩ : ArchEntry) ∈ (cleanup_old_archives cfgW stW5).archives ∧
    matchCount (basename (cfgW.file_path.getD ""))
        (cleanup_old_archives cfgW stW5).archives
      = min cfgW.backup_count
          (matchCount (basename (cfgW.file_path.getD "")) stW5.archives) := by
  refine ⟨by decide, by decide, ?_, ?_⟩
  · exact (c5_prune_scope cfgW stW5 (by decide)).1 ⟨"other.txt", 9, "X"⟩
      (by decide) (by decide)
  · exact ((c5_prune_scope cfgW stW5 (by decide)).2.2 (by decide)).2

/-! ### C6: the retention bound across rotation sequences -/

/-- Writing an archive either keeps the name listing unchanged (overwrite) or
appends the one fresh name. -/
theorem writeArchive_names (st : FsState) (e : ArchEntry) :
    ((writeArchive st e).archives.map (fun x => x.name))
      = (st.archives.map (fun x => x.name)) ∨
    (((writeArchive st e).archives.map (fun x => x.name))
      = (st.archives.map (fun x => x.name)) ++ [e.name] ∧
     ¬ e.name ∈ (st.archives.map (fun x => x.name))) := by
  unfold writeArchive
  split
  · left
    simp only [List.map_map]
    apply List.map_congr_left
    intro x _
    by_cases h : x.name = e.name
    · simp [h]
    · simp [h]
  · right
    rename_i hany
    constructor
    · simp
    · intro habs
      rcases List.mem_map.mp habs with ⟨x, hx, hxe⟩
      exact hany (List.any_eq_true.mpr ⟨x, hx, by simp [hxe]⟩)

/-- Writing an archive preserves uniqueness of the directory's file names. -/
theorem writeArchive_names_nodup (st : FsState) (e : ArchEntry)
    (hnd : (st.archives.map (fun x => x.name)).Nodup) :
    (((writeArchive st e).archives.map (fun x => x.name))).Nodup := by
  rcases writeArchive_names st e with h | ⟨h, hni⟩
  · rw [h]; exact hnd
  · rw [h]
    refine List.Nodup.append hnd (List.nodup_singleton _) ?_
    intro a ha hb
    rw [List.mem_singleton] at hb
    subst hb
    exact hni ha

/-- The matching-archive count only depends on the name listing. -/
theorem matchCount_names (base : String) (archs : List ArchEntry) :
    matchCount base archs
      = (archs.map (fun e => e.name)).countP (fun nm => matchesArchivePat base nm) := by
  unfold matchCount matchingArchives
  rw [List.countP_map, List.countP_eq_length_filter]
  rfl

/-- One fault-free rotation check preserves name uniqueness and the
retention bound. -/
theorem rotate_nodup_bound (cfg : LoggerCfg) (comp : String → String)
    (ts : String) (now : Nat) (st : FsState)
    (hadir : truthy cfg.archive_dir = true)
    (hnd : (st.archives.map (fun e => e.name)).Nodup)
    (hb : matchCount (basename (cfg.file_path.getD "")) st.archives
      ≤ cfg.backup_count) :
    (((rotate_log_file cfg comp ts now noFaults st).1.archives.map
        (fun e => e.name)).Nodup) ∧
    matchCount (basename (cfg.file_path.getD ""))
      (rotate_log_file cfg comp ts now noFaults st).1.archives
      ≤ cfg.backup_count := by
  by_cases hfp : truthy cfg.file_path = true
  · cases hlive : st.live with
    | none =>
      rw [rotate_skip_no_file cfg comp ts now noFaults st hlive]
      exact ⟨hnd, hb⟩
    | some c =>
      by_cases hge : cfg.max_file_size ≤ c.length
      · rw [rotate_triggered_ok cfg comp ts now st c hfp hlive hge]
        have hnd2 : ((({ writeArchive st
            ⟨get_archive_filename (cfg.file_path.getD "") ts, now, comp c⟩ with
              live := some "" } : FsState).archives.map (fun e => e.name))).Nodup :=
          writeArchive_names_nodup st _ hnd
        constructor
        · rw [cleanup_archives_eq _ _ hadir]
          exact hnd2.sublist ((List.filter_sublist _).map _)
        · rw [cleanup_matchCount _ _ hadir hnd2]
          omega
      · rw [rotate_skip_small cfg comp ts now noFaults st c hlive (Nat.not_le.mp hge)]
        exact ⟨hnd, hb⟩
  · rw [rotate_skip_no_path cfg comp ts now noFaults st (by simpa using hfp)]
    exact ⟨hnd, hb⟩

/-- Any fault-free sequence of rotation checks preserves name uniqueness
and the retention bound. -/
theorem runRotations_nodup_bound (cfg : LoggerCfg) (comp : String → String)
    (calls : List RotCall) (hadir : truthy cfg.archive_dir = true) :
    ∀ st : FsState,
      (st.archives.map (fun e => e.name)).Nodup →
      matchCount (basename (cfg.file_path.getD "")) st.archives
        ≤ cfg.backup_count →
      ((((runRotations cfg comp calls st).archives.map (fun e => e.name)).Nodup) ∧
       matchCount (basename (cfg.file_path.getD ""))
         (runRotations cfg comp calls st).archives ≤ cfg.backup_count) := by
  induction calls with
  | nil =>
    intro st hnd hb
    simpa [runRotations] using And.intro hnd hb
  | cons c cs ih =>
    intro st hnd hb
    have h := rotate_nodup_bound cfg comp c.ts c.now st hadir hnd hb
    have hstep : runRotations cfg comp (c :: cs) st
        = runRotations cfg comp cs (rotate_log_file cfg comp c.ts c.now noFaults st).1 := by
      simp [runRotations]
    rw [hstep]
    exact ih _ h.1 h.2

/-- C6: starting from an archive directory with unique file names whose
matching-archive count is within `backup_count`, after any sequence of
fault-free rotation checks the number of `.gz` archives matching the live
log's base name never exceeds `backup_count`. -/
theorem c6_retention_bound (cfg : LoggerCfg) (comp : String → String)
    (calls : List RotCall) (st : FsState)
    (hadir : truthy cfg.archive_dir = true)
    (hnd : (st.archives.map (fun e => e.name)).Nodup)
    (hb : matchCount (basename (cfg.file_path.getD "")) st.archives
      ≤ cfg.backup_count) :
    matchCount (basename (cfg.file_path.getD ""))
      (runRotations cfg comp calls st).archives ≤ cfg.backup_count :=
  (runRotations_nodup_bound cfg comp calls hadir st hnd hb).2

/-- Witness for C6: two archives already present (`backup_count = 2`), two
rotation checks run (the first triggers and archives the full live file),
and the matching count stays at most `2`. -/
theorem c6_retention_bound_witness :
    matchCount (basename (cfgW.file_path.getD ""))
      (runRotations cfgW id [⟨"t1", 4⟩, ⟨"t2", 5⟩]
        ⟨some "xx", [⟨"app.log_a.gz", 1, "A"⟩, ⟨"app.log_b.gz", 2, "B"⟩]⟩).archives
      ≤ cfgW.backup_count :=
  c6_retention_bound cfgW id [⟨"t1", 4⟩, ⟨"t2", 5⟩]
    ⟨some "xx", [⟨"app.log_a.gz", 1, "A"⟩, ⟨"app.log_b.gz", 2, "B"⟩]⟩
    (by decide) (by decide) (by decide)

/-! ### C7: the archive holds a compressed copy of the pre-rotation content -/

/-- When the archive name is fresh, writing the archive appends one file. -/
theorem writeArchive_fresh (st : FsState) (e : ArchEntry)
    (hfresh : ∀ x ∈ st.archives, x.name ≠ e.name) :
    (writeArchive st e).archives = st.archives ++ [e] := by
  unfold writeArchive
  have hany : st.archives.any (fun x => x.name == e.name) = false := by
    rw [List.any_eq_false]
    intro x hx
    simp [hfresh x hx]
  simp [hany]

/-- A matching entry strictly newer than everything else in the directory
is among the first `k ≥ 1` entries of the newest-first matching order. -/
theorem newest_matching_in_take (base : String) (k : Nat) (l : List ArchEntry)
    (e : ArchEntry) (hmatch : matchesArchivePat base e.name = true)
    (hnew : ∀ x ∈ l, x.mtime < e.mtime) (hk : 1 ≤ k) :
    e ∈ ((matchingArchives base (l ++ [e])).mergeSort mtimeGe).take k := by
  have hm2 : matchingArchives base (l ++ [e]) = matchingArchives base l ++ [e] := by
    unfold matchingArchives
    rw [List.filter_append]
    simp [hmatch]
  have hmem : e ∈ (matchingArchives base (l ++ [e])).mergeSort mtimeGe := by
    rw [List.mem_mergeSort, hm2]
    exact List.mem_append_right _ (List.mem_singleton_self e)
  have hpw : ((matchingArchives base (l ++ [e])).mergeSort mtimeGe).Pairwise
      (fun a b => mtimeGe a b = true) :=
    List.sorted_mergeSort
      (fun a b c hab hbc => by
        unfold mtimeGe at hab hbc ⊢
        simp only [decide_eq_true_eq] at hab hbc ⊢
        omega)
      (fun a b => by
        unfold mtimeGe
        rcases Nat.le_total b.mtime a.mtime with h | h <;> simp [h])
      (matchingArchives base (l ++ [e]))
  cases hs : (matchingArchives base (l ++ [e])).mergeSort mtimeGe with
  | nil => rw [hs] at hmem; cases hmem
  | cons h t =>
    rw [hs] at hmem hpw
    have hhead : h = e := by
      by_contra hne
      have het : e ∈ t := by
        rcases List.mem_cons.mp hmem with heq | het
        · exact absurd heq.symm hne
        · exact het
      have hle : mtimeGe h e = true := (List.pairwise_cons.mp hpw).1 e het
      have hhm : h ∈ matchingArchives base l ++ [e] := by
        have hh : h ∈ (matchingArchives base (l ++ [e])).mergeSort mtimeGe := by
          rw [hs]; exact List.mem_cons_self h t
        rw [← hm2]
        exact List.mem_mergeSort.mp hh
      rcases List.mem_append.mp hhm with hl2 | hsing
      · have hxl : h ∈ l := (List.mem_filter.mp hl2).1
        have := hnew h hxl
        simp only [mtimeGe, decide_eq_true_eq] at hle
        omega
      · exact hne (List.mem_singleton.mp hsing)
    subst hhead
    cases k with
    | zero => omega
    | succ n =>
      rw [List.take_succ_cons]
      exact List.mem_cons_self _ _

/-- A freshly named entry that pruning keeps is found in the directory
after `_cleanup_old_archives` under its own name. -/
theorem cleanup_find_newest (cfg : LoggerCfg) (live : Option String)
    (l : List ArchEntry) (e : ArchEntry)
    (hadir : truthy cfg.archive_dir = true)
    (hnd : (((l ++ [e]).map (fun x => x.name))).Nodup)
    (hfresh : ∀ x ∈ l, x.name ≠ e.name)
    (htake : e ∈ ((matchingArchives (basename (cfg.file_path.getD ""))
        (l ++ [e])).mergeSort mtimeGe).take cfg.backup_count) :
    findArchive (cleanup_old_archives cfg ⟨live, l ++ [e]⟩) e.name = some e := by
  obtain ⟨hel, hkeep, hmatch⟩ := (kept_matching_iff hnd _ _ e).mpr htake
  unfold findArchive
  rw [cleanup_archives_eq cfg ⟨live, l ++ [e]⟩ hadir]
  rw [show (FsState.mk live (l ++ [e])).archives = l ++ [e] from rfl]
  rw [List.filter_append, List.find?_append]
  have h1 : (l.filter (fun x =>
      !((removedNames (basename (cfg.file_path.getD "")) cfg.backup_count
        (l ++ [e])).contains x.name))).find? (fun x => x.name == e.name)
      = none := by
    rw [List.find?_eq_none]
    intro x hx
    have hxl : x ∈ l := List.mem_of_mem_filter hx
    simp only [beq_iff_eq]
    exact hfresh x hxl
  have h2 : [e].filter (fun x =>
      !((removedNames (basename (cfg.file_path.getD "")) cfg.backup_count
        (l ++ [e])).contains x.name)) = [e] := by
    simp only [List.filter_cons, hkeep, if_true, List.filter_nil]
  rw [h1, h2]
  simp [List.find?_cons]

/-- C7: a fault-free triggered rotation writes, under the timestamped
archive name, an entry whose content is the compression of exactly the
live file's pre-rotation content; decompressing it with any left inverse
of the compressor returns that content byte-for-byte.  (The archive name
is assumed fresh and its mtime newer than the directory's, and
`backup_count ≥ 1` so pruning keeps the new archive.) -/
theorem c7_gzip_roundtrip (cfg : LoggerCfg) (comp decomp : String → String)
    (hinv : ∀ s, decomp (comp s) = s) (ts : String) (now : Nat)
    (st : FsState) (c : String)
    (hfp : truthy cfg.file_path = true)
    (hadir : truthy cfg.archive_dir = true)
    (hlive : st.live = some c) (hge : cfg.max_file_size ≤ c.length)
    (hnd : (st.archives.map (fun e => e.name)).Nodup)
    (hfresh : ∀ x ∈ st.archives,
      x.name ≠ get_archive_filename (cfg.file_path.getD "") ts)
    (hnew : ∀ x ∈ st.archives, x.mtime < now)
    (hmatch : matchesArchivePat (basename (cfg.file_path.getD ""))
      (get_archive_filename (cfg.file_path.getD "") ts) = true)
    (hk : 1 ≤ cfg.backup_count) :
    findArchive (rotate_log_file cfg comp ts now noFaults st).1
        (get_archive_filename (cfg.file_path.getD "") ts)
      = some ⟨get_archive_filename (cfg.file_path.getD "") ts, now, comp c⟩ ∧
    decomp (comp c) = c := by
  refine ⟨?_, hinv c⟩
  have henew : ∃ enew : ArchEntry,
      enew = ⟨get_archive_filename (cfg.file_path.getD "") ts, now, comp c⟩ :=
    ⟨_, rfl⟩
  obtain ⟨enew, henew⟩ := henew
  rw [rotate_triggered_ok cfg comp ts now st c hfp hlive hge, ← henew]
  have hfreshe : ∀ x ∈ st.archives, x.name ≠ enew.name := by
    intro x hx
    rw [henew]
    exact hfresh x hx
  have hstate : ({ writeArchive st enew with live := some "" } : FsState)
      = ⟨some "", st.archives ++ [enew]⟩ := by
    have h := writeArchive_fresh st enew hfreshe
    calc ({ writeArchive st enew with live := some "" } : FsState)
        = ⟨some "", (writeArchive st enew).archives⟩ := rfl
      _ = ⟨some "", st.archives ++ [enew]⟩ := by rw [h]
  rw [hstate]
  show findArchive (cleanup_old_archives cfg ⟨some "", st.archives ++ [enew]⟩)
      (get_archive_filename (cfg.file_path.getD "") ts) = some enew
  have hname : get_archive_filename (cfg.file_path.getD "") ts = enew.name := by
    rw [henew]
  rw [hname]
  have hnd2 : (((st.archives ++ [enew]).map (fun x => x.name))).Nodup := by
    rw [List.map_append]
    refine List.Nodup.append hnd (List.nodup_singleton _) ?_
    intro a ha hb
    rw [List.map_singleton, List.mem_singleton] at hb
    subst hb
    rcases List.mem_map.mp ha with ⟨x, hx, hxe⟩
    exact hfreshe x hx hxe
  refine cleanup_find_newest cfg (some "") st.archives enew hadir hnd2 hfreshe ?_
  apply newest_matching_in_take (basename (cfg.file_path.getD ""))
    cfg.backup_count st.archives enew
  · rw [henew]
    exact hmatch
  · intro x hx
    rw [henew]
    exact hnew x hx
  · exact hk

/-- Witness for C7: rotating a full live file `"xx"` with one older archive
present stores `comp "xx"` under the timestamped name, and decompressing
returns `"xx"` (compressor and decompressor instantiated with `id`). -/
theorem c7_gzip_roundtrip_witness :
    findArchive (rotate_log_file cfgW id "20250101_000000" 9 noFaults
        ⟨some "xx", [⟨"app.log_a.gz", 1, "A"⟩]⟩).1
        (get_archive_filename (cfgW.file_path.getD "") "20250101_000000")
      = some ⟨get_archive_filename (cfgW.file_path.getD "") "20250101_000000",
          9, id "xx"⟩ ∧
    id (id "xx") = "xx" :=
  c7_gzip_roundtrip cfgW id id (fun _ => rfl) "20250101_000000" 9
    ⟨some "xx", [⟨"app.log_a.gz", 1, "A"⟩]⟩ "xx" (by decide) (by decide) rfl
    (by decide) (by decide) (by decide) (by decide) (by decide) (by decide)

/-! ### C4: the rotation gate -/

/-- C4: `_rotate_log_file` is a no-op when `file_path` is falsy or the live
file does not exist, and changes nothing when the live file is smaller
than `max_file_size`; when the size is at least `max_file_size` (fault
free), it truncates the live file to empty — the file keeps existing at
its path — and the archive directory becomes the result of archiving the
old content and then pruning. -/
theorem c4_check_and_rotate (cfg : LoggerCfg) (comp : String → String)
    (ts : String) (now : Nat) (st : FsState) :
    (truthy cfg.file_path = false →
      rotate_log_file cfg comp ts now noFaults st = (st, [])) ∧
    (st.live = none →
      rotate_log_file cfg comp ts now noFaults st = (st, [])) ∧
    (∀ c, st.live = some c → c.length < cfg.max_file_size →
      rotate_log_file cfg comp ts now noFaults st = (st, [])) ∧
    (∀ c, st.live = some c → truthy cfg.file_path = true →
      cfg.max_file_size ≤ c.length →
      (rotate_log_file cfg comp ts now noFaults st).1.live = some "" ∧
      (rotate_log_file cfg comp ts now noFaults st).1.archives =
        (cleanup_old_archives cfg
          { writeArchive st ⟨get_archive_filename (cfg.file_path.getD "") ts,
              now, comp c⟩ with live := some "" }).archives ∧
      (rotate_log_file cfg comp ts now noFaults st).2 = []) := by
  refine ⟨fun h => rotate_skip_no_path cfg comp ts now noFaults st h,
          fun h => rotate_skip_no_file cfg comp ts now noFaults st h,
          fun c hc hlt => rotate_skip_small cfg comp ts now noFaults st c hc hlt,
          fun c hc hfp hge => ?_⟩
  rw [rotate_triggered_ok cfg comp ts now st c hfp hc hge]
  exact ⟨by rw [cleanup_live], rfl, rfl⟩

/-- Witness for C4: a small live file is left alone; a full one is
truncated to the (still existing) empty file. -/
theorem c4_check_and_rotate_witness :
    rotate_log_file cfgW id "t" 7 noFaults ⟨some "", []⟩ = (⟨some "", []⟩, []) ∧
    (rotate_log_file cfgW id "t" 7 noFaults ⟨some "xx", []⟩).1.live = some "" := by
  constructor
  · exact (c4_check_and_rotate cfgW id "t" 7 ⟨some "", []⟩).2.2.1 "" rfl (by decide)
  · exact ((c4_check_and_rotate cfgW id "t" 7 ⟨some "xx", []⟩).2.2.2 "xx" rfl
      (by decide) (by decide)).1
